import Mathlib

/-!
Shallow embedding of the Spectrum-2/3 hardware clock driver
(drivers/net/mlx_sx/sx_clock_spc2_3.c) and verification of its
specification claims.

Machine integers are modelled as Nat / Int with explicit reduction
modulo 2^w wherever the C code can wrap. External collaborators
(the MTUTC command transport, the audit log, the memory-mapped UTC
register) are modelled as explicit inputs and as an event trace
produced by each operation.
-/

namespace SxClock

/-- Reduce an integer into the signed 32-bit range, two-s-complement style
(the value a C s32 holds after a wrapping computation). -/
def wrapS32 (n : Int) : Int := (n + 2 ^ 31) % 2 ^ 32 - 2 ^ 31

/-- Reduce an integer into the signed 64-bit range, two-s-complement style. -/
def wrapS64 (n : Int) : Int := (n + 2 ^ 63) % 2 ^ 64 - 2 ^ 63

/-- Value a C u64 holds after an integer computation: reduction modulo 2^64. -/
def wrapU64 (n : Int) : Nat := (n % 2 ^ 64).toNat

/-- Conversion of a u64 bit pattern to the s64 value it denotes
(assignment of a u64 into a signed 64-bit field). -/
def s64ofU64 (n : Nat) : Int := if n < 2 ^ 63 then (n : Int) else (n : Int) - 2 ^ 64

/-- NSEC_PER_SEC from the Linux kernel headers. -/
def NSEC_PER_SEC : Int := 1000000000

/-- sx_clock_timespec_t / struct timespec: tv_sec and tv_nsec are signed
(long) fields. -/
structure SxTimespec where
  tv_sec : Int
  tv_nsec : Int
deriving DecidableEq, Repr

/-- Modelled from the spec: SX_CLOCK_TIMESPEC_TO_NS (defined in sx_clock.h,
which is not among the sources at hand). The spec describes the fallback as
reading the current time and adding delta in nanoseconds in a 64-bit
computation, i.e. the macro yields tv_sec * NSEC_PER_SEC + tv_nsec. -/
def SX_CLOCK_TIMESPEC_TO_NS (ts : SxTimespec) : Int :=
  ts.tv_sec * NSEC_PER_SEC + ts.tv_nsec

/-- The ku_access_mtutc_reg payload fields the driver writes
(after memset to zero). Field widths of the unavailable header are kept
as unbounded integers; the driver stores values verbatim. -/
structure MtutcReg where
  operation : Nat
  freq_adjustment : Int
  time_adjustment : Int
  utc_sec : Int
  utc_nsec : Int
deriving DecidableEq, Repr

/-- memset(&reg_mtutc, 0, sizeof(reg_mtutc)). -/
def emptyMtutc : MtutcReg :=
  { operation := 0, freq_adjustment := 0, time_adjustment := 0, utc_sec := 0, utc_nsec := 0 }

/-- Audit-log entries appended through the sx_clock_log_add_* collaborators. -/
inductive LogEntry where
  | adjfreq (delta : Int)
  | settime (ns : Int)
  | adjtime (delta : Int)
deriving DecidableEq, Repr

/-- Observable side effects of one driver call, in program order:
a command submitted to the MTUTC transport, an audit-log append, or a
read of the hardware UTC register through the bound callback. -/
inductive Event where
  | submit (reg : MtutcReg)
  | log (e : LogEntry)
  | readHw
deriving DecidableEq, Repr

/-- Commands submitted to the transport, in order, within a trace. -/
def submits (evs : List Event) : List MtutcReg :=
  evs.filterMap fun e =>
    match e with
    | .submit r => some r
    | _ => none

/-- Audit-log entries appended, in order, within a trace. -/
def logEvents (evs : List Event) : List LogEntry :=
  evs.filterMap fun e =>
    match e with
    | .log l => some l
    | _ => none

/-- Number of hardware UTC reads within a trace. -/
def readCount (evs : List Event) : Nat :=
  (evs.filter fun e =>
    match e with
    | .readHw => true
    | _ => false).length

/-- The function __read_cr_space_utc: splits the byte-order-corrected 64-bit
UTC word into (utc_high, utc_low) 32-bit halves. -/
def read_cr_space_utc (hw_utc : Nat) : Nat × Nat :=
  let v := hw_utc % 2 ^ 64
  (v / 2 ^ 32, v % 2 ^ 32)

/-- The function __read_cr_space_utc_spc2: SPC2 layout, sec = 32 msb,
nsec = 32 lsb. -/
def read_cr_space_utc_spc2 (hw_utc : Nat) : SxTimespec :=
  let sn := read_cr_space_utc hw_utc
  { tv_sec := sn.1, tv_nsec := sn.2 }

/-- The function __read_cr_space_utc_spc3: SPC3 layout, the first out
parameter (the high half) receives nsec and the second (the low half)
receives sec — the mirror image of SPC2. -/
def read_cr_space_utc_spc3 (hw_utc : Nat) : SxTimespec :=
  let ns := read_cr_space_utc hw_utc
  { tv_sec := ns.2, tv_nsec := ns.1 }

/-- The two values the global function pointer __read_hw_utc_cb can be
bound to by initialization. -/
inductive HwUtcCb where
  | spc2
  | spc3
deriving DecidableEq, Repr

/-- Dispatch through the bound callback, given the current raw UTC word. -/
def runCb : HwUtcCb → Nat → SxTimespec
  | .spc2, w => read_cr_space_utc_spc2 w
  | .spc3, w => read_cr_space_utc_spc3 w

/-- The function __write_mtutc: fills in routing data and submits the
register write through the sx_ACCESS_REG_MTUTC transport collaborator,
returning its error code verbatim (the printk on error is not an
observable of this model). The transport is an explicit parameter. -/
def write_mtutc (transport : MtutcReg → Int) (reg : MtutcReg) : Int :=
  transport reg

/-- The function __adjfreq_spc2: negates delta on the s32 local, submits an
ADJUST_FREQ (operation 3) command, and on success logs the original delta. -/
def adjfreq_spc2 (transport : MtutcReg → Int) (delta : Int) : Int × List Event :=
  let orig_delta := delta
  let delta := wrapS32 (-delta)
  let reg := { emptyMtutc with operation := 3, freq_adjustment := delta }
  let err := write_mtutc transport reg
  if err = 0 then
    (err, [.submit reg, .log (.adjfreq orig_delta)])
  else
    (err, [.submit reg])

/-- The function __settime_spc2: submits a SET_TIME_IMMEDIATE (operation 1)
command carrying tv_sec and tv_nsec verbatim, and on success logs the
absolute nanosecond value computed in the signed 64-bit domain. -/
def settime_spc2 (transport : MtutcReg → Int) (ts : SxTimespec) : Int × List Event :=
  let reg := { emptyMtutc with operation := 1, utc_sec := ts.tv_sec, utc_nsec := ts.tv_nsec }
  let err := write_mtutc transport reg
  if err = 0 then
    (err, [.submit reg, .log (.settime (wrapS64 (wrapS64 (ts.tv_sec * NSEC_PER_SEC) + ts.tv_nsec)))])
  else
    (err, [.submit reg])

/-- The function __adjtime_spc2. Out-of-range deltas are converted to a
set_time: the current hardware time is read through the bound callback
(the current raw word is the hw_word parameter), delta is added in u64
nanoseconds, the result renormalized by u64 division, and __settime_spc2
issued. In-range deltas are submitted directly as an ADJUST_TIME
(operation 2) command with the delta cast to int. On success the original
delta is logged (in the fallback this is in addition to the log entry the
inner __settime_spc2 already appended). -/
def adjtime_spc2 (transport : MtutcReg → Int) (cb : HwUtcCb) (hw_word : Nat)
    (delta : Int) : Int × List Event :=
  if delta < -32768 ∨ delta > 32767 then
    let hw_utc := runCb cb hw_word
    let nsec : Nat := wrapU64 (SX_CLOCK_TIMESPEC_TO_NS hw_utc + delta)
    let hw_utc2 : SxTimespec := { tv_sec := (nsec / 1000000000 : Nat), tv_nsec := (nsec % 1000000000 : Nat) }
    let r := settime_spc2 transport hw_utc2
    if r.1 = 0 then
      (r.1, .readHw :: r.2 ++ [.log (.adjtime delta)])
    else
      (r.1, .readHw :: r.2)
  else
    let reg := { emptyMtutc with operation := 2, time_adjustment := wrapS32 delta }
    let err := write_mtutc transport reg
    if err = 0 then
      (err, [.submit reg, .log (.adjtime delta)])
    else
      (err, [.submit reg])

/-- The single static struct ptp_clock_info instance defined in the file,
__clock_info_spc2 (the operation table registered with the clock
framework). -/
inductive PtpClockInfo where
  | clock_info_spc2
deriving DecidableEq, Repr

/-- The module-level mutable state: the truncated-seconds byte offset, the
bound UTC read callback (a NULL function pointer before initialization),
and the operation tables registered so far with sx_clock_register. -/
structure ClockState where
  sec_offset : Nat
  read_hw_utc_cb : Option HwUtcCb
  registered : List PtpClockInfo
deriving DecidableEq, Repr

/-- State before any initialization: static zero-initialized globals, so
the callback is a NULL pointer and no table is registered. -/
def clockInitialState : ClockState :=
  { sec_offset := 0, read_hw_utc_cb := none, registered := [] }

/-- The function __gettime_spc2: calls the bound callback on the current
raw UTC word and returns 0. Before initialization the callback is a NULL
function pointer and the call has no defined result (a crash), modelled
as none. -/
def gettime_spc2 (s : ClockState) (hw_word : Nat) : Option (SxTimespec × Int) :=
  match s.read_hw_utc_cb with
  | none => none
  | some cb => some (runCb cb hw_word, 0)

/-- The function sx_clock_init_spc2: offset 0, SPC2 decode callback,
registers __clock_info_spc2. -/
def sx_clock_init_spc2 (s : ClockState) : ClockState :=
  { s with
    sec_offset := 0
    read_hw_utc_cb := some .spc2
    registered := s.registered ++ [.clock_info_spc2] }

/-- The function sx_clock_init_spc3: offset 4, SPC3 decode callback, and
registers the same __clock_info_spc2 instance as the SPC2 path. -/
def sx_clock_init_spc3 (s : ClockState) : ClockState :=
  { s with
    sec_offset := 4
    read_hw_utc_cb := some .spc3
    registered := s.registered ++ [.clock_info_spc2] }

/-- The function sx_clock_cqe_ts_to_utc_spc2. utc_sec_word is the
byte-order-corrected u32 read of the seconds sub-register (held in a u64
local); its low 8 bits are compared against the truncated CQE seconds and
the full seconds reconstructed, assuming at most one 256 s wraparound.
The u64 arithmetic and the final assignment into the signed tv_sec field
are modelled explicitly. Nanoseconds are copied through unchanged. -/
def sx_clock_cqe_ts_to_utc_spc2 (utc_sec_word : Nat) (cqe_ts : SxTimespec) : SxTimespec :=
  let utc_sec : Nat := utc_sec_word % 2 ^ 32
  let utc_sec_8bit : Nat := utc_sec % 256
  let sec : Int :=
    if cqe_ts.tv_sec ≤ (utc_sec_8bit : Int) then
      s64ofU64 (wrapU64 ((utc_sec : Int) - ((utc_sec_8bit : Int) - cqe_ts.tv_sec)))
    else
      s64ofU64 (wrapU64 ((utc_sec : Int) - 256 + (cqe_ts.tv_sec - (utc_sec_8bit : Int))))
  { tv_sec := sec, tv_nsec := cqe_ts.tv_nsec }

/-- Command built by __settime_spc2 for a given timespec. -/
def settimeReg (ts : SxTimespec) : MtutcReg :=
  { emptyMtutc with operation := 1, utc_sec := ts.tv_sec, utc_nsec := ts.tv_nsec }

/-- Command built by __adjfreq_spc2 for a given delta (negated on the s32
local before being stored). -/
def adjfreqReg (d : Int) : MtutcReg :=
  { emptyMtutc with operation := 3, freq_adjustment := wrapS32 (-d) }

/-- Command built by the in-range branch of __adjtime_spc2. -/
def adjtimeReg (d : Int) : MtutcReg :=
  { emptyMtutc with operation := 2, time_adjustment := wrapS32 d }

/-- Timespec recomputed by the out-of-range branch of __adjtime_spc2:
current time plus delta in u64 nanoseconds, renormalized by u64 division. -/
def fallbackTs (cb : HwUtcCb) (w : Nat) (d : Int) : SxTimespec :=
  let nsec : Nat := wrapU64 (SX_CLOCK_TIMESPEC_TO_NS (runCb cb w) + d)
  { tv_sec := (nsec / 1000000000 : Nat), tv_nsec := (nsec % 1000000000 : Nat) }

end SxClock

namespace SxClock

/-- Round trip: a signed 64-bit value pushed through u64 arithmetic and read
back as s64 is unchanged when it fits in the signed 64-bit range. -/
lemma s64ofU64_wrapU64_eq (i : Int) (h1 : -(2 ^ 63) ≤ i) (h2 : i < 2 ^ 63) :
    s64ofU64 (wrapU64 i) = i := by
  simp only [s64ofU64, wrapU64]
  split <;> omega

/-- wrapS32 is the identity on values already in the signed 32-bit range. -/
lemma wrapS32_eq_self (n : Int) (h1 : -(2 ^ 31) ≤ n) (h2 : n < 2 ^ 31) :
    wrapS32 n = n := by
  simp only [wrapS32]
  omega

/-- Both decode variants produce fields in the u32 range. -/
lemma runCb_bounds (cb : HwUtcCb) (w : Nat) :
    0 ≤ (runCb cb w).tv_sec ∧ (runCb cb w).tv_sec < 2 ^ 32 ∧
    0 ≤ (runCb cb w).tv_nsec ∧ (runCb cb w).tv_nsec < 2 ^ 32 := by
  cases cb <;>
    simp only [runCb, read_cr_space_utc_spc2, read_cr_space_utc_spc3, read_cr_space_utc] <;>
    refine ⟨by positivity, ?_, by positivity, ?_⟩ <;> omega

/-- Closed form of the seconds field computed by sx_clock_cqe_ts_to_utc_spc2
for a u32 seconds reading and a truncated (8-bit) CQE seconds value: the u64
wraparound arithmetic and the signed reinterpretation cancel. -/
lemma cqe_ts_to_utc_sec_eq (utc_sec : Nat) (cqe : SxTimespec)
    (hsec : utc_sec < 2 ^ 32) (hlo : 0 ≤ cqe.tv_sec) (hhi : cqe.tv_sec < 256) :
    (sx_clock_cqe_ts_to_utc_spc2 utc_sec cqe).tv_sec =
      if cqe.tv_sec ≤ ((utc_sec % 256 : Nat) : Int) then
        (utc_sec : Int) - (((utc_sec % 256 : Nat) : Int) - cqe.tv_sec)
      else
        (utc_sec : Int) - 256 + (cqe.tv_sec - ((utc_sec % 256 : Nat) : Int)) := by
  have hmod : utc_sec % 2 ^ 32 = utc_sec := Nat.mod_eq_of_lt hsec
  simp only [sx_clock_cqe_ts_to_utc_spc2, hmod]
  split
  · rw [s64ofU64_wrapU64_eq] <;> omega
  · rw [s64ofU64_wrapU64_eq] <;> omega

/-- C2: for a truncated timestamp and a current hardware seconds reading
(now_trunc being its low 8 bits), reconcile returns
now_seconds_full - (now_trunc - cqe.seconds) when now_trunc >= cqe.seconds
and now_seconds_full - 256 + (cqe.seconds - now_trunc) otherwise, and the
nanoseconds are carried through from the CQE timestamp unchanged. -/
theorem reconcile_formula_spec (utc_sec : Nat) (cqe : SxTimespec)
    (hsec : utc_sec < 2 ^ 32) (hlo : 0 ≤ cqe.tv_sec) (hhi : cqe.tv_sec < 256) :
    ((sx_clock_cqe_ts_to_utc_spc2 utc_sec cqe).tv_sec =
      if cqe.tv_sec ≤ ((utc_sec % 256 : Nat) : Int) then
        (utc_sec : Int) - (((utc_sec % 256 : Nat) : Int) - cqe.tv_sec)
      else
        (utc_sec : Int) - 256 + (cqe.tv_sec - ((utc_sec % 256 : Nat) : Int)))
    ∧ (sx_clock_cqe_ts_to_utc_spc2 utc_sec cqe).tv_nsec = cqe.tv_nsec :=
  ⟨cqe_ts_to_utc_sec_eq utc_sec cqe hsec hlo hhi, rfl⟩

/-- Witness for C2: the non-wrapped case, now_seconds_full = 100296
(low 8 bits 200), cqe seconds 150, giving 100296 - 50 = 100246 and the
nanoseconds copied through. -/
theorem reconcile_formula_spec_witness :
    (100296 < 2 ^ 32 ∧ (0 : Int) ≤ 150 ∧ (150 : Int) < 256) ∧
    (sx_clock_cqe_ts_to_utc_spc2 100296 ⟨150, 777⟩).tv_sec = 100246 ∧
    (sx_clock_cqe_ts_to_utc_spc2 100296 ⟨150, 777⟩).tv_nsec = 777 := by
  have h := reconcile_formula_spec 100296 ⟨150, 777⟩ (by decide) (by decide) (by decide)
  exact ⟨by decide, h.1.trans (by decide), h.2⟩

/-- C10: the reconstructed seconds value is congruent to the truncated CQE
seconds modulo 256 and lies within 255 seconds at or below the current
hardware seconds reading. -/
theorem reconcile_congruence (utc_sec : Nat) (cqe : SxTimespec)
    (hsec : utc_sec < 2 ^ 32) (hlo : 0 ≤ cqe.tv_sec) (hhi : cqe.tv_sec < 256) :
    (sx_clock_cqe_ts_to_utc_spc2 utc_sec cqe).tv_sec % 256 = cqe.tv_sec
    ∧ (utc_sec : Int) - 255 ≤ (sx_clock_cqe_ts_to_utc_spc2 utc_sec cqe).tv_sec
    ∧ (sx_clock_cqe_ts_to_utc_spc2 utc_sec cqe).tv_sec ≤ (utc_sec : Int) := by
  rw [cqe_ts_to_utc_sec_eq utc_sec cqe hsec hlo hhi]
  split <;> push_cast <;> omega

/-- Witness for C10: a wrapped case, reading 266 (low 8 bits 10) with CQE
seconds 250: the result 250 is congruent to 250 mod 256 and lies in
[266 - 255, 266]. -/
theorem reconcile_congruence_witness :
    (266 < 2 ^ 32 ∧ (0 : Int) ≤ 250 ∧ (250 : Int) < 256) ∧
    ((sx_clock_cqe_ts_to_utc_spc2 266 ⟨250, 5⟩).tv_sec % 256 = 250
     ∧ (266 : Int) - 255 ≤ (sx_clock_cqe_ts_to_utc_spc2 266 ⟨250, 5⟩).tv_sec
     ∧ (sx_clock_cqe_ts_to_utc_spc2 266 ⟨250, 5⟩).tv_sec ≤ (266 : Int)) :=
  ⟨by decide, reconcile_congruence 266 ⟨250, 5⟩ (by decide) (by decide) (by decide)⟩

/-- C6: the SPC2 decode takes seconds from the most-significant 32 bits and
nanoseconds from the least-significant 32 bits of the raw word, the SPC3
decode is the exact mirror, hence each field of one equals the swapped
field of the other on the same word. -/
theorem decode_layout_mirror (v : Nat) (h : v < 2 ^ 64) :
    (read_cr_space_utc_spc2 v).tv_sec = ((v / 2 ^ 32 : Nat) : Int)
    ∧ (read_cr_space_utc_spc2 v).tv_nsec = ((v % 2 ^ 32 : Nat) : Int)
    ∧ (read_cr_space_utc_spc3 v).tv_sec = ((v % 2 ^ 32 : Nat) : Int)
    ∧ (read_cr_space_utc_spc3 v).tv_nsec = ((v / 2 ^ 32 : Nat) : Int)
    ∧ (read_cr_space_utc_spc2 v).tv_sec = (read_cr_space_utc_spc3 v).tv_nsec
    ∧ (read_cr_space_utc_spc2 v).tv_nsec = (read_cr_space_utc_spc3 v).tv_sec := by
  have hm : v % 2 ^ 64 = v := Nat.mod_eq_of_lt h
  simp only [read_cr_space_utc_spc2, read_cr_space_utc_spc3, read_cr_space_utc, hm]
  simp

/-- Witness for C6: the word with high half 7 and low half 9 decodes to
sec 7 / nsec 9 under SPC2 and to the swapped pair under SPC3. -/
theorem decode_layout_mirror_witness :
    ((7 * 2 ^ 32 + 9 : Nat) < 2 ^ 64) ∧
    ((read_cr_space_utc_spc2 (7 * 2 ^ 32 + 9)).tv_sec =
        (read_cr_space_utc_spc3 (7 * 2 ^ 32 + 9)).tv_nsec
     ∧ (read_cr_space_utc_spc2 (7 * 2 ^ 32 + 9)).tv_nsec =
        (read_cr_space_utc_spc3 (7 * 2 ^ 32 + 9)).tv_sec) :=
  ⟨by decide, (decode_layout_mirror (7 * 2 ^ 32 + 9) (by decide)).2.2.2.2⟩

/-- C9: initialization for SPC2 binds byte offset 0 and the SPC2 decode,
initialization for SPC3 binds byte offset 4 and the SPC3 decode, and both
paths register the same __clock_info_spc2 operation-table instance. -/
theorem init_binding_and_registration (s : ClockState) :
    (sx_clock_init_spc2 s).sec_offset = 0
    ∧ (sx_clock_init_spc2 s).read_hw_utc_cb = some HwUtcCb.spc2
    ∧ (∀ w, runCb HwUtcCb.spc2 w = read_cr_space_utc_spc2 w)
    ∧ (sx_clock_init_spc3 s).sec_offset = 4
    ∧ (sx_clock_init_spc3 s).read_hw_utc_cb = some HwUtcCb.spc3
    ∧ (∀ w, runCb HwUtcCb.spc3 w = read_cr_space_utc_spc3 w)
    ∧ (sx_clock_init_spc2 s).registered = s.registered ++ [PtpClockInfo.clock_info_spc2]
    ∧ (sx_clock_init_spc3 s).registered = s.registered ++ [PtpClockInfo.clock_info_spc2] :=
  ⟨rfl, rfl, fun _ => rfl, rfl, rfl, fun _ => rfl, rfl, rfl⟩

end SxClock

namespace SxClock

/-- Unfolding of __settime_spc2 in terms of the command it submits. -/
lemma settime_spc2_eq (t : MtutcReg → Int) (ts : SxTimespec) :
    settime_spc2 t ts =
      if t (settimeReg ts) = 0 then
        (t (settimeReg ts),
          [.submit (settimeReg ts),
           .log (.settime (wrapS64 (wrapS64 (ts.tv_sec * NSEC_PER_SEC) + ts.tv_nsec)))])
      else
        (t (settimeReg ts), [.submit (settimeReg ts)]) := by
  simp only [settime_spc2, write_mtutc, settimeReg]

/-- Unfolding of __adjfreq_spc2 in terms of the command it submits. -/
lemma adjfreq_spc2_eq (t : MtutcReg → Int) (d : Int) :
    adjfreq_spc2 t d =
      if t (adjfreqReg d) = 0 then
        (t (adjfreqReg d), [.submit (adjfreqReg d), .log (.adjfreq d)])
      else
        (t (adjfreqReg d), [.submit (adjfreqReg d)]) := by
  simp only [adjfreq_spc2, write_mtutc, adjfreqReg]

/-- Unfolding of the in-range branch of __adjtime_spc2. -/
lemma adjtime_spc2_in_range_eq (t : MtutcReg → Int) (cb : HwUtcCb) (w : Nat) (d : Int)
    (h : ¬(d < -32768 ∨ d > 32767)) :
    adjtime_spc2 t cb w d =
      if t (adjtimeReg d) = 0 then
        (t (adjtimeReg d), [.submit (adjtimeReg d), .log (.adjtime d)])
      else
        (t (adjtimeReg d), [.submit (adjtimeReg d)]) := by
  simp only [adjtime_spc2, if_neg h, write_mtutc, adjtimeReg]

/-- Unfolding of the out-of-range branch of __adjtime_spc2: a read of the
hardware clock, the inner __settime_spc2 call, and the extra adjtime log
entry on success. -/
lemma adjtime_spc2_fallback_eq (t : MtutcReg → Int) (cb : HwUtcCb) (w : Nat) (d : Int)
    (h : d < -32768 ∨ d > 32767) :
    adjtime_spc2 t cb w d =
      if (settime_spc2 t (fallbackTs cb w d)).1 = 0 then
        ((settime_spc2 t (fallbackTs cb w d)).1,
          .readHw :: (settime_spc2 t (fallbackTs cb w d)).2 ++ [.log (.adjtime d)])
      else
        ((settime_spc2 t (fallbackTs cb w d)).1, .readHw :: (settime_spc2 t (fallbackTs cb w d)).2) := by
  simp only [adjtime_spc2, if_pos h, fallbackTs]

/-- The err component of __settime_spc2 is the transport result on the
submitted command. -/
lemma settime_err_eq (t : MtutcReg → Int) (ts : SxTimespec) :
    (settime_spc2 t ts).1 = t (settimeReg ts) := by
  rw [settime_spc2_eq]; split <;> rfl

/-- A __settime_spc2 call submits exactly its command, in both outcomes. -/
lemma settime_submits (t : MtutcReg → Int) (ts : SxTimespec) :
    submits (settime_spc2 t ts).2 = [settimeReg ts] := by
  rw [settime_spc2_eq]; split <;> simp [submits]

/-- A __settime_spc2 call performs no hardware clock read. -/
lemma settime_readCount (t : MtutcReg → Int) (ts : SxTimespec) :
    readCount (settime_spc2 t ts).2 = 0 := by
  rw [settime_spc2_eq]; split <;> simp [readCount]

/-- A successful __settime_spc2 call appends exactly its one log entry. -/
lemma settime_logEvents_success (t : MtutcReg → Int) (ts : SxTimespec)
    (h : (settime_spc2 t ts).1 = 0) :
    logEvents (settime_spc2 t ts).2 =
      [.settime (wrapS64 (wrapS64 (ts.tv_sec * NSEC_PER_SEC) + ts.tv_nsec))] := by
  rw [settime_spc2_eq] at h ⊢
  split at h <;> simp_all [logEvents]

/-- A failing __settime_spc2 call appends no log entry. -/
lemma settime_logEvents_fail (t : MtutcReg → Int) (ts : SxTimespec)
    (h : (settime_spc2 t ts).1 ≠ 0) :
    logEvents (settime_spc2 t ts).2 = [] := by
  rw [settime_spc2_eq] at h ⊢
  split at h <;> simp_all [logEvents]

lemma submits_cons_readHw (l : List Event) : submits (.readHw :: l) = submits l := rfl

lemma submits_append_log (l : List Event) (e : LogEntry) :
    submits (l ++ [.log e]) = submits l := by
  simp [submits]

lemma readCount_cons_readHw (l : List Event) :
    readCount (.readHw :: l) = readCount l + 1 := by
  simp [readCount]

lemma readCount_append_log (l : List Event) (e : LogEntry) :
    readCount (l ++ [.log e]) = readCount l := by
  simp [readCount]

lemma logEvents_cons_readHw (l : List Event) : logEvents (.readHw :: l) = logEvents l := rfl

lemma logEvents_append_log (l : List Event) (e : LogEntry) :
    logEvents (l ++ [.log e]) = logEvents l ++ [e] := by
  simp [logEvents]

/-- C3: a delta within [-32768, 32767] is submitted directly as an
ADJUST_TIME command carrying exactly that delta, with no hardware time
read; any delta outside that range takes the fallback, reading the
hardware time once and submitting a single SET_TIME_IMMEDIATE command. -/
theorem adjtime_range_policy (t : MtutcReg → Int) (cb : HwUtcCb) (w : Nat) (d : Int) :
    (-32768 ≤ d ∧ d ≤ 32767 →
        submits (adjtime_spc2 t cb w d).2 =
          [{ emptyMtutc with operation := 2, time_adjustment := d }]
        ∧ readCount (adjtime_spc2 t cb w d).2 = 0)
    ∧ (d < -32768 ∨ d > 32767 →
        readCount (adjtime_spc2 t cb w d).2 = 1
        ∧ (submits (adjtime_spc2 t cb w d).2).map MtutcReg.operation = [1]) := by
  constructor
  · rintro ⟨h1, h2⟩
    have hn : ¬(d < -32768 ∨ d > 32767) := by omega
    have hw : wrapS32 d = d := wrapS32_eq_self d (by omega) (by omega)
    rw [adjtime_spc2_in_range_eq t cb w d hn]
    split <;> simp [adjtimeReg, submits, readCount, hw]
  · intro h
    rw [adjtime_spc2_fallback_eq t cb w d h]
    by_cases hc : (settime_spc2 t (fallbackTs cb w d)).1 = 0
    · rw [if_pos hc]
      refine ⟨?_, ?_⟩ <;>
        simp [readCount_cons_readHw, readCount_append_log, settime_readCount,
              submits_cons_readHw, submits_append_log, settime_submits,
              settimeReg, emptyMtutc]
    · rw [if_neg hc]
      refine ⟨?_, ?_⟩ <;>
        simp [readCount_cons_readHw, settime_readCount, submits_cons_readHw,
              settime_submits, settimeReg, emptyMtutc]

/-- Witness for C3: delta 32767 goes out directly as ADJUST_TIME with no
read; delta 32768 takes the fallback, reads once and issues a set-time. -/
theorem adjtime_range_policy_witness :
    (((-32768 : Int) ≤ 32767 ∧ (32767 : Int) ≤ 32767) ∧
      submits (adjtime_spc2 (fun _ => 0) .spc2 0 32767).2 =
        [{ emptyMtutc with operation := 2, time_adjustment := 32767 }]
      ∧ readCount (adjtime_spc2 (fun _ => 0) .spc2 0 32767).2 = 0) ∧
    (((32768 : Int) < -32768 ∨ (32768 : Int) > 32767) ∧
      readCount (adjtime_spc2 (fun _ => 0) .spc2 0 32768).2 = 1
      ∧ (submits (adjtime_spc2 (fun _ => 0) .spc2 0 32768).2).map MtutcReg.operation = [1]) :=
  ⟨⟨by decide, (adjtime_range_policy (fun _ => 0) .spc2 0 32767).1 (by decide)⟩,
   ⟨by decide, (adjtime_range_policy (fun _ => 0) .spc2 0 32768).2 (by decide)⟩⟩

/-- C4 counterexample: at delta = -2^31 the s32 negation wraps, so the
submitted frequency adjustment is -2^31 itself, which differs from the
mathematical -delta = 2^31. -/
theorem adjfreq_intmin_counterexample :
    submits (adjfreq_spc2 (fun _ => 0) (-2147483648)).2 =
      [{ emptyMtutc with operation := 3, freq_adjustment := -2147483648 }]
    ∧ ((-2147483648 : Int) ≠ 2147483648) := by
  exact ⟨by decide, by decide⟩

/-- C4 as amended: for every signed 32-bit delta the submitted command
stores the two-s-complement negation of delta — equal to -delta for every
delta except -2^31, where the negation wraps back to -2^31 — and a
successful call logs the original, non-negated delta. -/
theorem adjfreq_negation (t : MtutcReg → Int) (d : Int)
    (h1 : -(2 ^ 31) ≤ d) (h2 : d < 2 ^ 31) :
    submits (adjfreq_spc2 t d).2 =
      [{ emptyMtutc with operation := 3, freq_adjustment := wrapS32 (-d) }]
    ∧ (d ≠ -(2 ^ 31) → wrapS32 (-d) = -d)
    ∧ (d = -(2 ^ 31) → wrapS32 (-d) = -(2 ^ 31))
    ∧ ((adjfreq_spc2 t d).1 = 0 → logEvents (adjfreq_spc2 t d).2 = [LogEntry.adjfreq d]) := by
  refine ⟨?_, fun hne => wrapS32_eq_self (-d) (by omega) (by omega),
          fun he => by rw [he]; decide, ?_⟩
  · rw [adjfreq_spc2_eq]
    split <;> simp [adjfreqReg, submits]
  · intro h0
    rw [adjfreq_spc2_eq] at h0 ⊢
    by_cases hc : t (adjfreqReg d) = 0
    · simp [hc, logEvents]
    · simp [hc] at h0

/-- Witness for C4 as amended, at delta = 1000 with a succeeding transport:
the submitted value is wrapS32 (-1000) = -1000 and the log records 1000. -/
theorem adjfreq_negation_witness :
    ((-(2 ^ 31) : Int) ≤ 1000 ∧ (1000 : Int) < 2 ^ 31) ∧
    (submits (adjfreq_spc2 (fun _ => 0) 1000).2 =
        [{ emptyMtutc with operation := 3, freq_adjustment := wrapS32 (-1000) }]
     ∧ ((1000 : Int) ≠ -(2 ^ 31) → wrapS32 (-(1000 : Int)) = -1000)
     ∧ ((1000 : Int) = -(2 ^ 31) → wrapS32 (-(1000 : Int)) = -(2 ^ 31))
     ∧ ((adjfreq_spc2 (fun _ => 0) 1000).1 = 0 →
          logEvents (adjfreq_spc2 (fun _ => 0) 1000).2 = [LogEntry.adjfreq 1000])) :=
  ⟨by decide, adjfreq_negation (fun _ => 0) 1000 (by decide) (by decide)⟩

/-- The recomputed fallback timespec carries exactly the current time plus
delta, renormalized with nanoseconds in [0, 1e9), whenever the 64-bit
nanosecond total is nonnegative (the u64 computation then cannot wrap). -/
lemma fallbackTs_spec (cb : HwUtcCb) (w : Nat) (d : Int)
    (hd1 : -(2 ^ 63) ≤ d) (hd2 : d < 2 ^ 63)
    (hpos : 0 ≤ SX_CLOCK_TIMESPEC_TO_NS (runCb cb w) + d) :
    (fallbackTs cb w d).tv_sec * 1000000000 + (fallbackTs cb w d).tv_nsec =
        SX_CLOCK_TIMESPEC_TO_NS (runCb cb w) + d
    ∧ 0 ≤ (fallbackTs cb w d).tv_nsec ∧ (fallbackTs cb w d).tv_nsec < 1000000000 := by
  obtain ⟨hs0, hs1, hn0, hn1⟩ := runCb_bounds cb w
  simp only [SX_CLOCK_TIMESPEC_TO_NS, NSEC_PER_SEC] at hpos ⊢
  simp only [fallbackTs, wrapU64, SX_CLOCK_TIMESPEC_TO_NS, NSEC_PER_SEC]
  omega

/-- C5: in the out-of-range fallback, the single submitted command is a
SET_TIME_IMMEDIATE whose absolute time equals the current hardware time
plus delta in 64-bit nanoseconds, renormalized so the nanoseconds field
lies in [0, 1e9) with the quotient carried into seconds. -/
theorem adjtime_fallback_settime_value (t : MtutcReg → Int) (cb : HwUtcCb) (w : Nat) (d : Int)
    (hrange : d < -32768 ∨ d > 32767)
    (hd1 : -(2 ^ 63) ≤ d) (hd2 : d < 2 ^ 63)
    (hpos : 0 ≤ SX_CLOCK_TIMESPEC_TO_NS (runCb cb w) + d) :
    ∃ r : MtutcReg,
      submits (adjtime_spc2 t cb w d).2 = [r]
      ∧ r.operation = 1
      ∧ r.utc_sec * 1000000000 + r.utc_nsec = SX_CLOCK_TIMESPEC_TO_NS (runCb cb w) + d
      ∧ 0 ≤ r.utc_nsec ∧ r.utc_nsec < 1000000000 := by
  obtain ⟨hval, hlo, hhi⟩ := fallbackTs_spec cb w d hd1 hd2 hpos
  refine ⟨settimeReg (fallbackTs cb w d), ?_, rfl, hval, hlo, hhi⟩
  rw [adjtime_spc2_fallback_eq t cb w d hrange]
  by_cases hc : (settime_spc2 t (fallbackTs cb w d)).1 = 0
  · rw [if_pos hc]
    simp [submits_cons_readHw, submits_append_log, settime_submits]
  · rw [if_neg hc]
    simp [submits_cons_readHw, settime_submits]

/-- Witness for C5: current time sec 100, nsec 500000000 and delta
2000000000 give the set-time command sec 102, nsec 500000000 — the
nanosecond overflow carried into seconds and the field renormalized. -/
theorem adjtime_fallback_settime_value_witness :
    (((2000000000 : Int) < -32768 ∨ (2000000000 : Int) > 32767)
      ∧ (-(2 ^ 63) : Int) ≤ 2000000000 ∧ (2000000000 : Int) < 2 ^ 63
      ∧ 0 ≤ SX_CLOCK_TIMESPEC_TO_NS (runCb .spc2 (100 * 2 ^ 32 + 500000000)) + 2000000000) ∧
    (∃ r : MtutcReg,
        submits (adjtime_spc2 (fun _ => 0) .spc2 (100 * 2 ^ 32 + 500000000) 2000000000).2 = [r]
        ∧ r.operation = 1
        ∧ r.utc_sec * 1000000000 + r.utc_nsec =
            SX_CLOCK_TIMESPEC_TO_NS (runCb .spc2 (100 * 2 ^ 32 + 500000000)) + 2000000000
        ∧ 0 ≤ r.utc_nsec ∧ r.utc_nsec < 1000000000) ∧
    submits (adjtime_spc2 (fun _ => 0) .spc2 (100 * 2 ^ 32 + 500000000) 2000000000).2 =
      [{ emptyMtutc with operation := 1, utc_sec := 102, utc_nsec := 500000000 }] :=
  ⟨by decide,
   adjtime_fallback_settime_value (fun _ => 0) .spc2 (100 * 2 ^ 32 + 500000000) 2000000000
     (by decide) (by decide) (by decide) (by decide),
   by decide⟩

end SxClock

namespace SxClock

/-- The err component of __adjfreq_spc2 is the transport result on its
submitted command. -/
lemma adjfreq_err_eq (t : MtutcReg → Int) (d : Int) :
    (adjfreq_spc2 t d).1 = t (adjfreqReg d) := by
  rw [adjfreq_spc2_eq]; split <;> rfl

/-- A successful __adjfreq_spc2 call submits its command and then appends
exactly one log entry carrying the original delta. -/
lemma adjfreq_success_trace (t : MtutcReg → Int) (d : Int)
    (h : (adjfreq_spc2 t d).1 = 0) :
    (adjfreq_spc2 t d).2 = [.submit (adjfreqReg d), .log (.adjfreq d)] := by
  rw [adjfreq_spc2_eq] at h ⊢
  split at h <;> simp_all

/-- A failing __adjfreq_spc2 call appends no log entry. -/
lemma adjfreq_fail_trace (t : MtutcReg → Int) (d : Int)
    (h : (adjfreq_spc2 t d).1 ≠ 0) :
    logEvents (adjfreq_spc2 t d).2 = [] := by
  by_cases hc : t (adjfreqReg d) = 0
  · rw [adjfreq_spc2_eq, if_pos hc] at h
    exact absurd hc h
  · rw [adjfreq_spc2_eq, if_neg hc]
    simp [logEvents]

/-- A successful __settime_spc2 call submits its command and then appends
exactly one log entry carrying the absolute nanosecond value. -/
lemma settime_success_trace (t : MtutcReg → Int) (ts : SxTimespec)
    (h : (settime_spc2 t ts).1 = 0) :
    (settime_spc2 t ts).2 =
      [.submit (settimeReg ts),
       .log (.settime (wrapS64 (wrapS64 (ts.tv_sec * NSEC_PER_SEC) + ts.tv_nsec)))] := by
  rw [settime_spc2_eq] at h ⊢
  split at h <;> simp_all

/-- The err component of the in-range branch of __adjtime_spc2. -/
lemma adjtime_in_range_err_eq (t : MtutcReg → Int) (cb : HwUtcCb) (w : Nat) (d : Int)
    (hr : ¬(d < -32768 ∨ d > 32767)) :
    (adjtime_spc2 t cb w d).1 = t (adjtimeReg d) := by
  rw [adjtime_spc2_in_range_eq t cb w d hr]; split <;> rfl

/-- The in-range branch submits exactly its ADJUST_TIME command. -/
lemma adjtime_in_range_submits (t : MtutcReg → Int) (cb : HwUtcCb) (w : Nat) (d : Int)
    (hr : ¬(d < -32768 ∨ d > 32767)) :
    submits (adjtime_spc2 t cb w d).2 = [adjtimeReg d] := by
  rw [adjtime_spc2_in_range_eq t cb w d hr]; split <;> simp [submits]

/-- A successful in-range __adjtime_spc2 call submits its command and then
appends exactly one log entry carrying the requested delta. -/
lemma adjtime_in_range_success_trace (t : MtutcReg → Int) (cb : HwUtcCb) (w : Nat) (d : Int)
    (hr : ¬(d < -32768 ∨ d > 32767)) (h : (adjtime_spc2 t cb w d).1 = 0) :
    (adjtime_spc2 t cb w d).2 = [.submit (adjtimeReg d), .log (.adjtime d)] := by
  rw [adjtime_spc2_in_range_eq t cb w d hr] at h ⊢
  split at h <;> simp_all

/-- A failing in-range __adjtime_spc2 call appends no log entry. -/
lemma adjtime_in_range_fail_trace (t : MtutcReg → Int) (cb : HwUtcCb) (w : Nat) (d : Int)
    (hr : ¬(d < -32768 ∨ d > 32767)) (h : (adjtime_spc2 t cb w d).1 ≠ 0) :
    logEvents (adjtime_spc2 t cb w d).2 = [] := by
  by_cases hc : t (adjtimeReg d) = 0
  · rw [adjtime_spc2_in_range_eq t cb w d hr, if_pos hc] at h
    exact absurd hc h
  · rw [adjtime_spc2_in_range_eq t cb w d hr, if_neg hc]
    simp [logEvents]

/-- The err component of the out-of-range branch of __adjtime_spc2 is the
inner set-time transport result. -/
lemma adjtime_fallback_err_eq (t : MtutcReg → Int) (cb : HwUtcCb) (w : Nat) (d : Int)
    (hr : d < -32768 ∨ d > 32767) :
    (adjtime_spc2 t cb w d).1 = t (settimeReg (fallbackTs cb w d)) := by
  rw [adjtime_spc2_fallback_eq t cb w d hr]
  split <;> exact settime_err_eq t (fallbackTs cb w d)

/-- The out-of-range branch submits exactly the recomputed SET_TIME
command. -/
lemma adjtime_fallback_submits (t : MtutcReg → Int) (cb : HwUtcCb) (w : Nat) (d : Int)
    (hr : d < -32768 ∨ d > 32767) :
    submits (adjtime_spc2 t cb w d).2 = [settimeReg (fallbackTs cb w d)] := by
  rw [adjtime_spc2_fallback_eq t cb w d hr]
  by_cases hc : (settime_spc2 t (fallbackTs cb w d)).1 = 0
  · rw [if_pos hc]
    simp [submits_cons_readHw, submits_append_log, settime_submits]
  · rw [if_neg hc]
    simp [submits_cons_readHw, settime_submits]

/-- A successful out-of-range __adjtime_spc2 call produces the trace of the
inner set-time followed by its own adjtime log entry — two log entries. -/
lemma adjtime_fallback_success_trace (t : MtutcReg → Int) (cb : HwUtcCb) (w : Nat) (d : Int)
    (hr : d < -32768 ∨ d > 32767) (h : (adjtime_spc2 t cb w d).1 = 0) :
    (adjtime_spc2 t cb w d).2 =
      .readHw :: (settime_spc2 t (fallbackTs cb w d)).2 ++ [.log (.adjtime d)]
    ∧ (logEvents (adjtime_spc2 t cb w d).2).length = 2 := by
  rw [adjtime_spc2_fallback_eq t cb w d hr] at h ⊢
  by_cases hc : (settime_spc2 t (fallbackTs cb w d)).1 = 0
  · rw [if_pos hc]
    refine ⟨rfl, ?_⟩
    simp [logEvents_cons_readHw, logEvents_append_log,
          settime_logEvents_success t (fallbackTs cb w d) hc]
  · rw [if_neg hc] at h
    exact absurd h hc

/-- A failing out-of-range __adjtime_spc2 call appends no log entry. -/
lemma adjtime_fallback_fail_trace (t : MtutcReg → Int) (cb : HwUtcCb) (w : Nat) (d : Int)
    (hr : d < -32768 ∨ d > 32767) (h : (adjtime_spc2 t cb w d).1 ≠ 0) :
    logEvents (adjtime_spc2 t cb w d).2 = [] := by
  rw [adjtime_spc2_fallback_eq t cb w d hr] at h ⊢
  by_cases hc : (settime_spc2 t (fallbackTs cb w d)).1 = 0
  · rw [if_pos hc] at h
    exact absurd hc h
  · rw [if_neg hc]
    simp [logEvents_cons_readHw, settime_logEvents_fail t (fallbackTs cb w d) hc]

/-- C1 counterexample: a successful adjust_time served by the out-of-range
fallback (delta 32768, succeeding transport) appends two audit-log
entries, not exactly one. -/
theorem adjtime_fallback_double_log :
    (adjtime_spc2 (fun _ => 0) .spc2 0 32768).1 = 0
    ∧ (logEvents (adjtime_spc2 (fun _ => 0) .spc2 0 32768).2).length = 2
    ∧ (logEvents (adjtime_spc2 (fun _ => 0) .spc2 0 32768).2).length ≠ 1 := by
  decide

/-- C1 as amended: every successful adjust_frequency, set_time, or in-range
adjust_time call produces a trace that submits its one command and only
then appends its one audit entry, and a failing call appends none; a
successful adjust_time served by the out-of-range fallback instead
produces the inner set-time trace (submit then log) followed by its own
adjtime entry — two audit entries in total, each appended only after the
submission succeeded. -/
theorem audit_log_per_call (t : MtutcReg → Int) (d32 : Int) (ts : SxTimespec)
    (cb : HwUtcCb) (w : Nat) (d64 : Int) :
    ((adjfreq_spc2 t d32).1 = 0 →
        (adjfreq_spc2 t d32).2 = [.submit (adjfreqReg d32), .log (.adjfreq d32)])
    ∧ ((adjfreq_spc2 t d32).1 ≠ 0 → logEvents (adjfreq_spc2 t d32).2 = [])
    ∧ ((settime_spc2 t ts).1 = 0 →
        (settime_spc2 t ts).2 =
          [.submit (settimeReg ts),
           .log (.settime (wrapS64 (wrapS64 (ts.tv_sec * NSEC_PER_SEC) + ts.tv_nsec)))])
    ∧ ((settime_spc2 t ts).1 ≠ 0 → logEvents (settime_spc2 t ts).2 = [])
    ∧ (¬(d64 < -32768 ∨ d64 > 32767) →
        ((adjtime_spc2 t cb w d64).1 = 0 →
            (adjtime_spc2 t cb w d64).2 = [.submit (adjtimeReg d64), .log (.adjtime d64)])
        ∧ ((adjtime_spc2 t cb w d64).1 ≠ 0 → logEvents (adjtime_spc2 t cb w d64).2 = []))
    ∧ ((d64 < -32768 ∨ d64 > 32767) →
        ((adjtime_spc2 t cb w d64).1 = 0 →
            (adjtime_spc2 t cb w d64).2 =
              .readHw :: (settime_spc2 t (fallbackTs cb w d64)).2 ++ [.log (.adjtime d64)]
            ∧ (logEvents (adjtime_spc2 t cb w d64).2).length = 2)
        ∧ ((adjtime_spc2 t cb w d64).1 ≠ 0 → logEvents (adjtime_spc2 t cb w d64).2 = [])) :=
  ⟨adjfreq_success_trace t d32, adjfreq_fail_trace t d32,
   settime_success_trace t ts, settime_logEvents_fail t ts,
   fun hr => ⟨adjtime_in_range_success_trace t cb w d64 hr,
              adjtime_in_range_fail_trace t cb w d64 hr⟩,
   fun hr => ⟨adjtime_fallback_success_trace t cb w d64 hr,
              adjtime_fallback_fail_trace t cb w d64 hr⟩⟩

/-- Witness for C1 as amended: a succeeding transport with adjfreq delta 5
and settime sec 1 / nsec 2 gives the submit-then-log traces. -/
theorem audit_log_per_call_witness :
    ((adjfreq_spc2 (fun _ => 0) 5).1 = 0) ∧
    (adjfreq_spc2 (fun _ => 0) 5).2 = [.submit (adjfreqReg 5), .log (.adjfreq 5)] ∧
    ((settime_spc2 (fun _ => 0) ⟨1, 2⟩).1 = 0) ∧
    (settime_spc2 (fun _ => 0) ⟨1, 2⟩).2 =
      [.submit (settimeReg ⟨1, 2⟩),
       .log (.settime (wrapS64 (wrapS64 ((1 : Int) * NSEC_PER_SEC) + 2)))] := by
  have h := audit_log_per_call (fun _ => 0) 5 ⟨1, 2⟩ .spc2 0 7
  exact ⟨by decide, h.1 (by decide), by decide, h.2.2.1 (by decide)⟩

/-- C7: the result of each adjustment operation is exactly the transport
result on the single command it submitted — a nonzero (failing) transport
code is returned unchanged — and a failing call appends zero audit-log
entries. -/
theorem error_propagation (t : MtutcReg → Int) (d32 : Int) (ts : SxTimespec)
    (cb : HwUtcCb) (w : Nat) (d64 : Int) :
    ((adjfreq_spc2 t d32).1 = t (adjfreqReg d32)
      ∧ ((adjfreq_spc2 t d32).1 ≠ 0 → logEvents (adjfreq_spc2 t d32).2 = []))
    ∧ ((settime_spc2 t ts).1 = t (settimeReg ts)
      ∧ ((settime_spc2 t ts).1 ≠ 0 → logEvents (settime_spc2 t ts).2 = []))
    ∧ (∃ r : MtutcReg,
        submits (adjtime_spc2 t cb w d64).2 = [r]
        ∧ (adjtime_spc2 t cb w d64).1 = t r
        ∧ ((adjtime_spc2 t cb w d64).1 ≠ 0 → logEvents (adjtime_spc2 t cb w d64).2 = [])) := by
  refine ⟨⟨adjfreq_err_eq t d32, adjfreq_fail_trace t d32⟩,
          ⟨settime_err_eq t ts, settime_logEvents_fail t ts⟩, ?_⟩
  by_cases hr : d64 < -32768 ∨ d64 > 32767
  · exact ⟨settimeReg (fallbackTs cb w d64),
           adjtime_fallback_submits t cb w d64 hr,
           adjtime_fallback_err_eq t cb w d64 hr,
           adjtime_fallback_fail_trace t cb w d64 hr⟩
  · exact ⟨adjtimeReg d64,
           adjtime_in_range_submits t cb w d64 hr,
           adjtime_in_range_err_eq t cb w d64 hr,
           adjtime_in_range_fail_trace t cb w d64 hr⟩

/-- Witness for C7: a transport that always fails with code 7 has its code
returned unchanged by all three operations and no audit entry appended. -/
theorem error_propagation_witness :
    ((adjfreq_spc2 (fun _ => 7) 5).1 ≠ 0) ∧
    (adjfreq_spc2 (fun _ => 7) 5).1 = 7 ∧
    logEvents (adjfreq_spc2 (fun _ => 7) 5).2 = [] ∧
    (settime_spc2 (fun _ => 7) ⟨1, 2⟩).1 = 7 ∧
    logEvents (settime_spc2 (fun _ => 7) ⟨1, 2⟩).2 = [] ∧
    (adjtime_spc2 (fun _ => 7) .spc2 0 40000).1 = 7 ∧
    logEvents (adjtime_spc2 (fun _ => 7) .spc2 0 40000).2 = [] := by
  have h := error_propagation (fun _ => 7) 5 ⟨1, 2⟩ .spc2 0 40000
  obtain ⟨r, _, _, hl⟩ := h.2.2
  exact ⟨by decide, h.1.1, h.1.2 (by decide), h.2.1.1, h.2.1.2 (by decide),
         by decide, hl (by decide)⟩

/-- C8 counterexample: at the concrete pre-initialization state, get_time
invokes the NULL read callback — the call has no defined result value at
all (modelled none), so no distinct UninitializedError is produced. -/
theorem gettime_before_init_cx :
    gettime_spc2 clockInitialState 0 = none := rfl

/-- C8 as amended: before initialization the read callback global is a
NULL function pointer and get_time invokes it unconditionally, so calling
get_time before initialization has no defined result (a crash), modelled
as none; the code performs no initialization check and reports no
dedicated error kind. -/
theorem gettime_before_init (w : Nat) :
    clockInitialState.read_hw_utc_cb = none ∧ gettime_spc2 clockInitialState w = none :=
  ⟨rfl, rfl⟩

end SxClock
